import Mathlib

/-!
Shallow embedding of `src/goodput.cc` (TCP goodput model, two pure functions
`Gpeak` and `GoodputBps` over a shared result record) and proofs of the
specification claims about it.

Modelling conventions:
* `uint64_t` inputs are `ℕ`; `int64_t` intermediates that provably stay
  non-negative are `ℕ`, the post-loop intermediates of `GoodputBps` (which the
  source computes in `int64_t` and which can go negative on degenerate inputs)
  are `ℤ`.  C++ signed division truncates toward zero, hence `Int.tdiv`.
* The narrowing conversions the source performs at its return statements are
  kept explicitly: `uint16_t(x)` is `x % 2 ^ 16`, `uint32_t(x)` is
  `Int.emod x (2 ^ 32)`, `uint64_t(x)` of a signed value is
  `Int.emod x (2 ^ 64)`.
* `std::ceil(double(totalBytes) / mssBytes)` is modelled as exact ceiling
  division and `std::ceil(std::log2 x)` as the exact base-2 ceiling logarithm;
  both are exact for every value a 64-bit transfer size can take in an IEEE
  double computation at the magnitudes the program is defined on.
* The search loop of `GoodputBps` is written with an explicit structural fuel
  so that it evaluates; the caller passes fuel `xferPkts + 1`, which is proved
  sufficient (the fuel-exhaustion branch is unreachable from the call site).
-/

/-- Source line 21: `#define MICROS_IN_SEC 1000000`. -/
def MICROS_IN_SEC : ℕ := 1000000

/-- Source lines 23-28: the `ModelResult` status enumeration. -/
inductive ModelResult where
  | OK
  | ERROR_MINRTT_IS_ZERO
  | ERROR_INIT_CWND_SLOWER_THAN_1BPMS
  | ERROR_TRANSFER_FASTER_THAN_MODEL
deriving DecidableEq

/-- Source lines 30-36: the `ModelRate` result record; all four numeric fields
are `uint64_t` in the source, modelled as `ℕ`. -/
structure ModelRate where
  bytesPerSec : ℕ
  rttsInSlowStart : ℕ
  projectedCwndPkts : ℕ
  lastFullCwndPkts : ℕ
  status : ModelResult
deriving DecidableEq

/-- Ceiling division on naturals, the exact value of
`std::ceil(double(a) / b)` for `b > 0` (source lines 45 and 84). -/
def ceilDivNat (a b : ℕ) : ℕ := (a + b - 1) / b

/-- Fuel-driven helper for `ceilLog2`; the fuel only needs to be at least the
argument, so `ceilLog2` supplies the argument itself. -/
def clog2Aux : ℕ → ℕ → ℕ
  | 0, _ => 0
  | fuel + 1, n => if n ≤ 1 then 0 else clog2Aux fuel ((n + 1) / 2) + 1

/-- Exact value of `std::ceil(std::log2 n)` for `n ≥ 1`: the least `k` with
`n ≤ 2 ^ k` (source line 51). -/
def ceilLog2 (n : ℕ) : ℕ := clog2Aux n n

/-- Source lines 45 and 84: `xferPkts = ceil(totalBytes / mssBytes)`. -/
def gpXferPkts (totalBytes mssBytes : ℕ) : ℕ := ceilDivNat totalBytes mssBytes

/-- Source line 51:
`rttsToLast = ceil(log2(double(xferPkts) / initCwndPkts + 1)) - 1`.
The real number `xferPkts / initCwndPkts + 1` and its integer ceiling lie
below the same powers of two, so the value is
`ceilLog2 (ceilDiv xferPkts initCwndPkts + 1) - 1`.  The source asserts
`rttsToLast >= 0` (line 52); on inputs satisfying the assertion the natural
subtraction below agrees with the `int64_t` subtraction of the source. -/
def gpeakRttsToLast (totalBytes initCwndPkts mssBytes : ℕ) : ℕ :=
  ceilLog2 (ceilDivNat (gpXferPkts totalBytes mssBytes) initCwndPkts + 1) - 1

/-- Source lines 54-57: `lastFullCwndPkts = (1 << (rttsToLast - 1)) * initCwndPkts`
when `rttsToLast > 0`, else `0`. -/
def gpeakLastFullCwnd (totalBytes initCwndPkts mssBytes : ℕ) : ℕ :=
  if 0 < gpeakRttsToLast totalBytes initCwndPkts mssBytes then
    2 ^ (gpeakRttsToLast totalBytes initCwndPkts mssBytes - 1) * initCwndPkts
  else 0

/-- Source lines 38-74: `Gpeak` (PeakRateBound).  The source asserts
`ssPkts <= xferPkts` (line 61), so on inputs satisfying the assertion the
natural subtraction in `lastRttPkts` agrees with the source.  The `uint16_t`
conversion applied to `lastFullCwndPktsMax` at line 73 is kept as `% 2 ^ 16`. -/
def Gpeak (totalBytes initCwndPkts mssBytes minRtt : ℕ) : ModelRate :=
  if minRtt = 0 then ⟨0, 0, 0, 0, .ERROR_MINRTT_IS_ZERO⟩
  else
    let xferPkts := gpXferPkts totalBytes mssBytes
    let rttsToLast := gpeakRttsToLast totalBytes initCwndPkts mssBytes
    let lastFullCwndPkts := gpeakLastFullCwnd totalBytes initCwndPkts mssBytes
    let ssPkts := (2 ^ rttsToLast - 1) * initCwndPkts
    let lastRttPkts := xferPkts - ssPkts
    let maxRttBytes := max lastFullCwndPkts lastRttPkts
    let GpeakBps := maxRttBytes * mssBytes * MICROS_IN_SEC / minRtt
    let projectedCwndPkts := initCwndPkts + xferPkts
    let lastFullCwndPktsMax := max initCwndPkts lastFullCwndPkts
    ⟨GpeakBps, rttsToLast, projectedCwndPkts, lastFullCwndPktsMax % 2 ^ 16, .OK⟩

/-- Source line 93: `tputBps = cwnd * mssBytes * MICROS_IN_SEC / minRtt.count()`. -/
def roundTput (cwnd mssBytes minRtt : ℕ) : ℕ :=
  cwnd * mssBytes * MICROS_IN_SEC / minRtt

/-- Source lines 102-106: the modelled completion time tested in each loop
iteration, `minRtt * (rtts + 1) + xmissionTime + ssXmissionTime`.  Inside the
loop `cum * mssBytes` never exceeds `totalBytes` (the cursor is below
`xferPkts`), so the natural subtraction agrees with the `uint64_t`
subtraction of the source. -/
def gpModelTime (totalBytes mssBytes minRtt rtts cum cwnd : ℕ) : ℕ :=
  minRtt * (rtts + 1) +
    (totalBytes - cum * mssBytes) * MICROS_IN_SEC / roundTput cwnd mssBytes minRtt +
    rtts * mssBytes * MICROS_IN_SEC / roundTput cwnd mssBytes minRtt

/-- Exit of the search loop of `GoodputBps`: either the zero-rate error return
of source lines 94-96, or the loop state (`rtts`, `cumulativePkts`, `cwnd`)
at the point where the `while` exits (by break or by its guard). -/
inductive LoopExit where
  | err
  | done (rtts cum cwnd : ℕ)
deriving DecidableEq

/-- Source lines 86-115: the `while (xferPkts > cumulativePkts)` search loop of
`GoodputBps`, with explicit structural fuel.  When the fuel hits zero the
current state is returned; the caller passes `xferPkts + 1`, which is proved
sufficient, so that branch is unreachable from the call site. -/
def ssearch (totalBytes mssBytes minRtt totalTime xferPkts : ℕ) :
    ℕ → ℕ → ℕ → ℕ → LoopExit
  | 0, rtts, cum, cwnd => .done rtts cum cwnd
  | fuel + 1, rtts, cum, cwnd =>
      if xferPkts ≤ cum then .done rtts cum cwnd
      else if roundTput cwnd mssBytes minRtt = 0 then .err
      else if gpModelTime totalBytes mssBytes minRtt rtts cum cwnd ≤ totalTime then
        .done rtts cum cwnd
      else
        ssearch totalBytes mssBytes minRtt totalTime xferPkts fuel
          (rtts + 1) (cum + cwnd) (cwnd * 2)

/-- Source lines 117-129: the backtrack step after the loop.  Returns the
corrected `(rtts, cumulativePkts, cwnd)`; `rtts` and `cumulativePkts` are
`int64_t` and can go negative on degenerate inputs, so they are `ℤ` here,
while `cwnd >>= 1` on the non-negative `cwnd` is natural division by two. -/
def gpBacktrack (xferPkts rtts cum cwnd : ℕ) : ℤ × ℤ × ℕ :=
  if xferPkts ≤ cum then ((rtts : ℤ) - 1, (cum : ℤ) - (cwnd / 2 : ℕ), cwnd / 2)
  else ((rtts : ℤ), (cum : ℤ), cwnd)

/-- Source lines 144-147:
`achievedBps = (xferPkts - cumulativePkts + rtts) * mssBytes * MICROS_IN_SEC / remainingTime`,
in `int64_t` arithmetic (truncating division, `Int.tdiv`). -/
def gpAchievedBps (mssBytes xferPkts : ℕ) (rtts cum remainingTime : ℤ) : ℤ :=
  (((xferPkts : ℤ) - cum + rtts) * (mssBytes : ℤ) * (MICROS_IN_SEC : ℤ)).tdiv
    remainingTime

/-- Source lines 117-152: everything after the search loop of `GoodputBps`:
backtrack, the `remainingTime <= 0` check, the achieved-rate computation and
the final record with its `uint32_t` narrowing conversions. -/
def gpFinish (totalBytes mssBytes minRtt totalTime xferPkts rtts cum cwnd : ℕ) :
    ModelRate :=
  let bt := gpBacktrack xferPkts rtts cum cwnd
  let remainingTime : ℤ := (totalTime : ℤ) - (minRtt : ℤ) * (bt.1 + 1)
  if remainingTime ≤ 0 then ⟨0, 0, 0, 0, .ERROR_TRANSFER_FASTER_THAN_MODEL⟩
  else
    let achievedBps : ℤ := gpAchievedBps mssBytes xferPkts bt.1 bt.2.1 remainingTime
    let projectedCwndPkts : ℤ :=
      (achievedBps * (minRtt : ℤ)).tdiv (MICROS_IN_SEC : ℤ) |>.tdiv (mssBytes : ℤ)
    ⟨(achievedBps % (2 ^ 32 : ℤ)).toNat, (bt.1 % (2 ^ 32 : ℤ)).toNat,
      (projectedCwndPkts % (2 ^ 64 : ℤ)).toNat, bt.2.2 % 2 ^ 64, .OK⟩

/-- Source lines 76-153: `GoodputBps` (InferAchievedRate). -/
def GoodputBps (totalBytes initCwndPkts mssBytes minRtt totalTime : ℕ) : ModelRate :=
  if minRtt = 0 then ⟨0, 0, 0, 0, .ERROR_MINRTT_IS_ZERO⟩
  else
    match ssearch totalBytes mssBytes minRtt totalTime (gpXferPkts totalBytes mssBytes)
        (gpXferPkts totalBytes mssBytes + 1) 0 0 initCwndPkts with
    | .err => ⟨0, 0, 0, 0, .ERROR_INIT_CWND_SLOWER_THAN_1BPMS⟩
    | .done rtts cum cwnd =>
        gpFinish totalBytes mssBytes minRtt totalTime (gpXferPkts totalBytes mssBytes)
          rtts cum cwnd

/-- C1: on the fixture `segmentBytes = 1460`, `initWindowPackets = 10`,
`minRtt = 20000µs`, `totalBytes = 10000000`, `Gpeak` computes
`xferPackets = 6850` and returns `roundsInSlowStart = 9`,
`lastFullWindowPackets = 2560`, `bytesPerSecond = 186880000`, `status = OK`. -/
theorem gpeak_fixture :
    gpXferPkts 10000000 1460 = 6850 ∧
    (Gpeak 10000000 10 1460 20000).rttsInSlowStart = 9 ∧
    (Gpeak 10000000 10 1460 20000).lastFullCwndPkts = 2560 ∧
    (Gpeak 10000000 10 1460 20000).bytesPerSec = 186880000 ∧
    (Gpeak 10000000 10 1460 20000).status = .OK := by
  decide

/-- C2: for `minRtt = 0` both functions return `ERROR_MINRTT_IS_ZERO` with all
four numeric fields zero, whatever the other arguments are. -/
theorem minrtt_zero_all_zero (totalBytes initCwndPkts mssBytes totalTime : ℕ) :
    Gpeak totalBytes initCwndPkts mssBytes 0 =
      ⟨0, 0, 0, 0, .ERROR_MINRTT_IS_ZERO⟩ ∧
    GoodputBps totalBytes initCwndPkts mssBytes 0 totalTime =
      ⟨0, 0, 0, 0, .ERROR_MINRTT_IS_ZERO⟩ := by
  constructor <;> simp [Gpeak, GoodputBps]

theorem ceilDivNat_eq_ceilDiv (a b : ℕ) : ceilDivNat a b = a ⌈/⌉ b :=
  (Nat.ceilDiv_eq_add_pred_div a b).symm

theorem ceilDivNat_le_iff {b : ℕ} (hb : 0 < b) (a c : ℕ) :
    ceilDivNat a b ≤ c ↔ a ≤ b * c := by
  rw [ceilDivNat_eq_ceilDiv]; exact ceilDiv_le_iff_le_mul hb

theorem lt_ceilDivNat_iff {b : ℕ} (hb : 0 < b) (a c : ℕ) :
    c < ceilDivNat a b ↔ b * c < a := by
  rw [← Nat.not_le, ← Nat.not_le, ceilDivNat_le_iff hb]

theorem le_mul_ceilDivNat {b : ℕ} (hb : 0 < b) (a : ℕ) : a ≤ b * ceilDivNat a b := by
  rw [ceilDivNat_eq_ceilDiv]; exact le_smul_ceilDiv hb

theorem ceilDivNat_pos {a b : ℕ} (ha : 1 ≤ a) (hb : 0 < b) : 1 ≤ ceilDivNat a b := by
  rw [show (1 : ℕ) ≤ ceilDivNat a b ↔ 0 < ceilDivNat a b from Iff.rfl,
    Nat.pos_iff_ne_zero]
  intro h0
  have := (ceilDivNat_le_iff hb a 0).mp (by omega)
  omega

theorem clog2Aux_eq_clog : ∀ fuel n : ℕ, n ≤ fuel → clog2Aux fuel n = Nat.clog 2 n := by
  intro fuel
  induction fuel with
  | zero =>
    intro n hn
    have : n = 0 := by omega
    subst this
    simp [clog2Aux, Nat.clog_of_right_le_one]
  | succ f ih =>
    intro n hn
    by_cases h1 : n ≤ 1
    · simp [clog2Aux, h1, Nat.clog_of_right_le_one h1]
    · have h2 : 2 ≤ n := by omega
      rw [clog2Aux, if_neg (by omega), ih ((n + 1) / 2) (by omega),
        Nat.clog_of_two_le (by norm_num) h2]
      norm_num

theorem ceilLog2_eq_clog (n : ℕ) : ceilLog2 n = Nat.clog 2 n :=
  clog2Aux_eq_clog n n le_rfl

theorem ceilLog2_le_iff (n k : ℕ) : ceilLog2 n ≤ k ↔ n ≤ 2 ^ k := by
  rw [ceilLog2_eq_clog]
  exact (Nat.le_pow_iff_clog_le (by norm_num)).symm

theorem le_pow_ceilLog2 (n : ℕ) : n ≤ 2 ^ ceilLog2 n :=
  (ceilLog2_le_iff n (ceilLog2 n)).mp le_rfl

theorem pow_lt_of_lt_ceilLog2 {n k : ℕ} (h : k < ceilLog2 n) : 2 ^ k < n := by
  by_contra hle
  exact absurd ((ceilLog2_le_iff n k).mpr (by omega)) (by omega)

theorem roundTput_mono {a b : ℕ} (m R : ℕ) (h : a ≤ b) :
    roundTput a m R ≤ roundTput b m R :=
  Nat.div_le_div_right (Nat.mul_le_mul_right _ (Nat.mul_le_mul_right _ h))

theorem emod_toNat_lt (a : ℤ) {n : ℕ} (hn : 0 < n) : (a % (n : ℤ)).toNat < n := by
  have h1 := Int.emod_nonneg a (show (n : ℤ) ≠ 0 by exact_mod_cast hn.ne')
  have h2 := Int.emod_lt_of_pos a (show (0 : ℤ) < n by exact_mod_cast hn)
  omega

/-- C8: when the transfer fits in the first window
(`totalBytes ≤ initWindowPackets * segmentBytes`), `Gpeak` computes
`rttsToLast = 0` and an intermediate `lastFullCwndPkts` of `0` before the
max-with-`initCwndPkts` adjustment at the return. -/
theorem gpeak_first_window (totalBytes initCwndPkts mssBytes minRtt : ℕ)
    (htb : 1 ≤ totalBytes) (hic : 1 ≤ initCwndPkts) (hm : 1 ≤ mssBytes)
    (hR : 1 ≤ minRtt) (hfit : totalBytes ≤ initCwndPkts * mssBytes) :
    gpeakRttsToLast totalBytes initCwndPkts mssBytes = 0 ∧
    gpeakLastFullCwnd totalBytes initCwndPkts mssBytes = 0 ∧
    (Gpeak totalBytes initCwndPkts mssBytes minRtt).rttsInSlowStart = 0 := by
  have hxp1 : 1 ≤ gpXferPkts totalBytes mssBytes := ceilDivNat_pos htb (by omega)
  have hxpic : gpXferPkts totalBytes mssBytes ≤ initCwndPkts := by
    rw [show gpXferPkts totalBytes mssBytes = ceilDivNat totalBytes mssBytes from rfl,
      ceilDivNat_le_iff (show 0 < mssBytes by omega), Nat.mul_comm]
    exact hfit
  have hone : ceilDivNat (gpXferPkts totalBytes mssBytes) initCwndPkts = 1 := by
    have hle : ceilDivNat (gpXferPkts totalBytes mssBytes) initCwndPkts ≤ 1 := by
      rw [ceilDivNat_le_iff (show 0 < initCwndPkts by omega), Nat.mul_one]
      exact hxpic
    exact le_antisymm hle (ceilDivNat_pos hxp1 (by omega))
  have h0 : gpeakRttsToLast totalBytes initCwndPkts mssBytes = 0 := by
    unfold gpeakRttsToLast
    rw [hone]
    decide
  refine ⟨h0, ?_, ?_⟩
  · unfold gpeakLastFullCwnd
    rw [h0]
    simp
  · have : minRtt ≠ 0 := by omega
    simp [Gpeak, this, h0]

/-- C5: if the first loop iteration computes a zero per-round rate
(`initCwndPkts * mssBytes * MICROS_IN_SEC / minRtt = 0`), `GoodputBps` returns
`ERROR_INIT_CWND_SLOWER_THAN_1BPMS` with all numeric fields zero. -/
theorem goodput_zero_rate (totalBytes initCwndPkts mssBytes minRtt totalTime : ℕ)
    (htb : 1 ≤ totalBytes) (hm : 1 ≤ mssBytes) (hR : 1 ≤ minRtt)
    (h0 : roundTput initCwndPkts mssBytes minRtt = 0) :
    GoodputBps totalBytes initCwndPkts mssBytes minRtt totalTime =
      ⟨0, 0, 0, 0, .ERROR_INIT_CWND_SLOWER_THAN_1BPMS⟩ := by
  have hxp : 1 ≤ gpXferPkts totalBytes mssBytes := ceilDivNat_pos htb (by omega)
  have hloop : ssearch totalBytes mssBytes minRtt totalTime
      (gpXferPkts totalBytes mssBytes) (gpXferPkts totalBytes mssBytes + 1)
      0 0 initCwndPkts = .err := by
    rw [ssearch, if_neg (by omega), if_pos h0]
  have hRne : minRtt ≠ 0 := by omega
  simp [GoodputBps, hRne, hloop]

/-- C3 counterexample: on `totalBytes = 200000`, `initCwndPkts = 10`,
`mssBytes = 1`, `minRtt = 1` the computed `rttsToLast` is `14` and the
full-width maximum `max 10 (10 * 2 ^ 13) = 81920`, but the returned
`lastFullCwndPkts` field is `16384 = 81920 % 2 ^ 16`: the `uint16_t`
conversion at the return loses value, so the field does not carry the
full-width maximum. -/
theorem gpeak_lastfull_not_full_width :
    (Gpeak 200000 10 1 1).rttsInSlowStart = 14 ∧
    max 10 (10 * 2 ^ (14 - 1)) = 81920 ∧
    (Gpeak 200000 10 1 1).lastFullCwndPkts = 16384 ∧
    (Gpeak 200000 10 1 1).lastFullCwndPkts ≠ max 10 (10 * 2 ^ (14 - 1)) := by
  decide

/-- C3 amended: for every input with `minRtt > 0`, the returned
`lastFullCwndPkts` equals `max initCwndPkts (initCwndPkts * 2 ^ (rttsToLast - 1))`
(second argument `0` when `rttsToLast = 0`) reduced modulo `2 ^ 16` by the
`uint16_t` conversion at the return. -/
theorem gpeak_lastfull_mod (totalBytes initCwndPkts mssBytes minRtt : ℕ)
    (hR : 1 ≤ minRtt) :
    (Gpeak totalBytes initCwndPkts mssBytes minRtt).lastFullCwndPkts =
      max initCwndPkts
        (if 0 < gpeakRttsToLast totalBytes initCwndPkts mssBytes then
          initCwndPkts * 2 ^ (gpeakRttsToLast totalBytes initCwndPkts mssBytes - 1)
        else 0) % 2 ^ 16 ∧
    (Gpeak totalBytes initCwndPkts mssBytes minRtt).rttsInSlowStart =
      gpeakRttsToLast totalBytes initCwndPkts mssBytes := by
  have hRne : minRtt ≠ 0 := by omega
  constructor <;> simp [Gpeak, gpeakLastFullCwnd, hRne, Nat.mul_comm]

theorem emod_two_pow_toNat_lt (a : ℤ) (k : ℕ) : (a % (2 ^ k : ℤ)).toNat < 2 ^ k := by
  have h1 := Int.emod_nonneg a (show (2 ^ k : ℤ) ≠ 0 by positivity)
  have h2 := Int.emod_lt_of_pos a (show (0 : ℤ) < 2 ^ k by positivity)
  have hcast : ((2 ^ k : ℕ) : ℤ) = (2 ^ k : ℤ) := by push_cast; ring
  omega

theorem emod_u32_toNat_lt (a : ℤ) : (a % (4294967296 : ℤ)).toNat < 4294967296 := by
  have h1 := Int.emod_nonneg a (show (4294967296 : ℤ) ≠ 0 by norm_num)
  have h2 := Int.emod_lt_of_pos a (show (0 : ℤ) < 4294967296 by norm_num)
  omega

/-- C10: at its `OK` return, `GoodputBps` narrows both the achieved rate and
the round count through `uint32_t` conversions: the returned `bytesPerSec`
and `rttsInSlowStart` are the values modulo `2 ^ 32` (in particular both are
below `2 ^ 32` although the record fields are 64-bit), and on the concrete
input `totalBytes = 1460000000`, `initCwndPkts = 10000`, `mssBytes = 1460`,
`minRtt = 1`, `totalTime = 101` the computed `achievedBps = 14600000000000`
exceeds `2 ^ 32` and the returned field differs from it. -/
theorem goodput_ok_narrowing :
    (∀ totalBytes mssBytes minRtt totalTime xferPkts rtts cum cwnd : ℕ,
      (gpFinish totalBytes mssBytes minRtt totalTime xferPkts rtts cum cwnd).status = .OK →
      (gpFinish totalBytes mssBytes minRtt totalTime xferPkts rtts cum cwnd).bytesPerSec =
        ((gpAchievedBps mssBytes xferPkts (gpBacktrack xferPkts rtts cum cwnd).1
            (gpBacktrack xferPkts rtts cum cwnd).2.1
            ((totalTime : ℤ) - (minRtt : ℤ) * ((gpBacktrack xferPkts rtts cum cwnd).1 + 1))) %
          (2 ^ 32 : ℤ)).toNat ∧
      (gpFinish totalBytes mssBytes minRtt totalTime xferPkts rtts cum cwnd).rttsInSlowStart =
        ((gpBacktrack xferPkts rtts cum cwnd).1 % (2 ^ 32 : ℤ)).toNat ∧
      (gpFinish totalBytes mssBytes minRtt totalTime xferPkts rtts cum cwnd).bytesPerSec < 2 ^ 32 ∧
      (gpFinish totalBytes mssBytes minRtt totalTime xferPkts rtts cum cwnd).rttsInSlowStart < 2 ^ 32) ∧
    (GoodputBps 1460000000 10000 1460 1 101).status = .OK ∧
    (GoodputBps 1460000000 10000 1460 1 101).bytesPerSec = 14600000000000 % 2 ^ 32 ∧
    (GoodputBps 1460000000 10000 1460 1 101).bytesPerSec ≠ 14600000000000 := by
  constructor
  · intro tb m R tt xp rtts cum cwnd hok
    by_cases h : (tt : ℤ) - (R : ℤ) * ((gpBacktrack xp rtts cum cwnd).1 + 1) ≤ 0
    · exfalso
      simp [gpFinish, h] at hok
    · refine ⟨?_, ?_, ?_, ?_⟩ <;>
        simp [gpFinish, h, emod_u32_toNat_lt]
  · refine ⟨by decide, by decide, by decide⟩

/-- Witness for C10: the general narrowing statement instantiated at the
concrete loop exit state `rtts = 0`, `cum = 0`, `cwnd = 3` of the input
`totalBytes = 10`, `mssBytes = 2`, `minRtt = 5`, `totalTime = 100`. -/
theorem goodput_ok_narrowing_w :
    (gpFinish 10 2 5 100 5 0 0 3).bytesPerSec =
      ((gpAchievedBps 2 5 (gpBacktrack 5 0 0 3).1 (gpBacktrack 5 0 0 3).2.1
          ((100 : ℤ) - (5 : ℤ) * ((gpBacktrack 5 0 0 3).1 + 1))) % (2 ^ 32 : ℤ)).toNat ∧
    (gpFinish 10 2 5 100 5 0 0 3).rttsInSlowStart =
      ((gpBacktrack 5 0 0 3).1 % (2 ^ 32 : ℤ)).toNat ∧
    (gpFinish 10 2 5 100 5 0 0 3).bytesPerSec < 2 ^ 32 ∧
    (gpFinish 10 2 5 100 5 0 0 3).rttsInSlowStart < 2 ^ 32 :=
  goodput_ok_narrowing.1 10 2 5 100 5 0 0 3 (by decide)

/-- Witness for C8 at `totalBytes = 5`, `initCwndPkts = 2`, `mssBytes = 3`,
`minRtt = 7`. -/
theorem gpeak_first_window_w :
    5 ≤ 2 * 3 ∧
    (gpeakRttsToLast 5 2 3 = 0 ∧ gpeakLastFullCwnd 5 2 3 = 0 ∧
      (Gpeak 5 2 3 7).rttsInSlowStart = 0) :=
  ⟨by decide,
    gpeak_first_window 5 2 3 7 (by decide) (by decide) (by decide) (by decide) (by decide)⟩

/-- Witness for C5 at `totalBytes = 1`, `initCwndPkts = 1`, `mssBytes = 1`,
`minRtt = 1000001` (one microsecond above one second), `totalTime = 0`. -/
theorem goodput_zero_rate_w :
    roundTput 1 1 1000001 = 0 ∧
    GoodputBps 1 1 1 1000001 0 = ⟨0, 0, 0, 0, .ERROR_INIT_CWND_SLOWER_THAN_1BPMS⟩ :=
  ⟨by decide,
    goodput_zero_rate 1 1 1 1000001 0 (by decide) (by decide) (by decide) (by decide)⟩

/-- Witness for the amended C3 at the spec fixture. -/
theorem gpeak_lastfull_mod_w :
    1 ≤ 20000 ∧
    ((Gpeak 10000000 10 1460 20000).lastFullCwndPkts =
      max 10
        (if 0 < gpeakRttsToLast 10000000 10 1460 then
          10 * 2 ^ (gpeakRttsToLast 10000000 10 1460 - 1)
        else 0) % 2 ^ 16 ∧
    (Gpeak 10000000 10 1460 20000).rttsInSlowStart = gpeakRttsToLast 10000000 10 1460) :=
  ⟨by decide, gpeak_lastfull_mod 10000000 10 1460 20000 (by decide)⟩

theorem ssearch_guard_exit (totalBytes mssBytes minRtt totalTime xferPkts : ℕ)
    (F rtts cum cwnd : ℕ) (h : xferPkts ≤ cum) :
    ssearch totalBytes mssBytes minRtt totalTime xferPkts F rtts cum cwnd =
      .done rtts cum cwnd := by
  cases F with
  | zero => rfl
  | succ f => rw [ssearch, if_pos h]

theorem roundTput_ne_zero_pos {cwnd mssBytes minRtt : ℕ}
    (h : roundTput cwnd mssBytes minRtt ≠ 0) : 1 ≤ cwnd := by
  rcases Nat.eq_zero_or_pos cwnd with h0 | h1
  · subst h0
    simp [roundTput] at h
  · exact h1

theorem ssearch_fuel_irrel (totalBytes mssBytes minRtt totalTime xferPkts : ℕ) :
    ∀ F G rtts cum cwnd, xferPkts - cum < F → xferPkts - cum < G →
      ssearch totalBytes mssBytes minRtt totalTime xferPkts F rtts cum cwnd =
        ssearch totalBytes mssBytes minRtt totalTime xferPkts G rtts cum cwnd := by
  intro F
  induction F with
  | zero => intro G rtts cum cwnd h1 h2; omega
  | succ f ih =>
    intro G rtts cum cwnd h1 h2
    by_cases hc : xferPkts ≤ cum
    · rw [ssearch_guard_exit totalBytes mssBytes minRtt totalTime xferPkts (f + 1)
          rtts cum cwnd hc,
        ssearch_guard_exit totalBytes mssBytes minRtt totalTime xferPkts G
          rtts cum cwnd hc]
    · cases G with
      | zero => omega
      | succ g =>
        rw [ssearch, ssearch, if_neg hc, if_neg hc]
        by_cases ht : roundTput cwnd mssBytes minRtt = 0
        · rw [if_pos ht, if_pos ht]
        · rw [if_neg ht, if_neg ht]
          by_cases hb : gpModelTime totalBytes mssBytes minRtt rtts cum cwnd ≤ totalTime
          · rw [if_pos hb, if_pos hb]
          · rw [if_neg hb, if_neg hb]
            have hw := roundTput_ne_zero_pos ht
            exact ih g (rtts + 1) (cum + cwnd) (cwnd * 2) (by omega) (by omega)

theorem ssearch_done_cases (totalBytes mssBytes minRtt totalTime xferPkts : ℕ) :
    ∀ F rtts0 cum0 cwnd0 rtts cum cwnd, cum0 < xferPkts → xferPkts - cum0 < F →
      ssearch totalBytes mssBytes minRtt totalTime xferPkts F rtts0 cum0 cwnd0 =
        .done rtts cum cwnd →
      cum < xferPkts ∨
        ∃ cp wp, cum = cp + wp ∧ cwnd = wp * 2 ∧ cp < xferPkts := by
  intro F
  induction F with
  | zero => intro rtts0 cum0 cwnd0 rtts cum cwnd h1 h2; omega
  | succ f ih =>
    intro rtts0 cum0 cwnd0 rtts cum cwnd hc hf hs
    rw [ssearch, if_neg (by omega)] at hs
    by_cases ht : roundTput cwnd0 mssBytes minRtt = 0
    · rw [if_pos ht] at hs
      exact absurd hs (by simp)
    · rw [if_neg ht] at hs
      by_cases hb : gpModelTime totalBytes mssBytes minRtt rtts0 cum0 cwnd0 ≤ totalTime
      · rw [if_pos hb] at hs
        cases hs
        exact Or.inl hc
      · rw [if_neg hb] at hs
        have hw := roundTput_ne_zero_pos ht
        by_cases hnext : cum0 + cwnd0 < xferPkts
        · exact ih (rtts0 + 1) (cum0 + cwnd0) (cwnd0 * 2) rtts cum cwnd hnext (by omega) hs
        · rw [ssearch_guard_exit totalBytes mssBytes minRtt totalTime xferPkts f
            (rtts0 + 1) (cum0 + cwnd0) (cwnd0 * 2) (by omega)] at hs
          cases hs
          exact Or.inr ⟨cum0, cwnd0, rfl, rfl, hc⟩

/-- C7: for valid inputs, the packets counted before the last round never
exceed the transfer packet count.  In `Gpeak` the quantity
`ssPkts = (2 ^ rttsToLast - 1) * initCwndPkts` is at most `xferPkts`, so the
assertion at source line 61 never fires; in `GoodputBps`, whatever state the
search loop exits in, the cumulative packet count after the backtrack step is
at most `xferPkts`. -/
theorem no_overshoot (totalBytes initCwndPkts mssBytes minRtt totalTime : ℕ)
    (htb : 1 ≤ totalBytes) (hic : 1 ≤ initCwndPkts) (hm : 1 ≤ mssBytes)
    (hR : 1 ≤ minRtt) :
    (2 ^ gpeakRttsToLast totalBytes initCwndPkts mssBytes - 1) * initCwndPkts ≤
      gpXferPkts totalBytes mssBytes ∧
    (∀ rtts cum cwnd,
      ssearch totalBytes mssBytes minRtt totalTime (gpXferPkts totalBytes mssBytes)
        (gpXferPkts totalBytes mssBytes + 1) 0 0 initCwndPkts = .done rtts cum cwnd →
      (gpBacktrack (gpXferPkts totalBytes mssBytes) rtts cum cwnd).2.1 ≤
        (gpXferPkts totalBytes mssBytes : ℤ)) := by
  have hic0 : 0 < initCwndPkts := hic
  have hxp1 : 1 ≤ gpXferPkts totalBytes mssBytes := ceilDivNat_pos htb (by omega)
  constructor
  · have hM2 : 2 ≤ ceilDivNat (gpXferPkts totalBytes mssBytes) initCwndPkts + 1 := by
      have := ceilDivNat_pos hxp1 hic0
      omega
    have hk1 : 1 ≤ ceilLog2 (ceilDivNat (gpXferPkts totalBytes mssBytes) initCwndPkts + 1) := by
      by_contra hcon
      have h1 := (ceilLog2_le_iff
        (ceilDivNat (gpXferPkts totalBytes mssBytes) initCwndPkts + 1) 0).mp (by omega)
      simp at h1
      omega
    have hlt : 2 ^ (ceilLog2 (ceilDivNat (gpXferPkts totalBytes mssBytes) initCwndPkts + 1) - 1) <
        ceilDivNat (gpXferPkts totalBytes mssBytes) initCwndPkts + 1 :=
      pow_lt_of_lt_ceilLog2 (by omega)
    have hid : ceilDivNat (gpXferPkts totalBytes mssBytes) initCwndPkts =
        (gpXferPkts totalBytes mssBytes - 1) / initCwndPkts + 1 := by
      unfold ceilDivNat
      rw [show gpXferPkts totalBytes mssBytes + initCwndPkts - 1 =
        (gpXferPkts totalBytes mssBytes - 1) + initCwndPkts by omega,
        Nat.add_div_right _ hic0]
    have h3 : 2 ^ (ceilLog2 (ceilDivNat (gpXferPkts totalBytes mssBytes) initCwndPkts + 1) - 1) - 1 ≤
        (gpXferPkts totalBytes mssBytes - 1) / initCwndPkts := by omega
    have h4 := (Nat.le_div_iff_mul_le hic0).mp h3
    show (2 ^ gpeakRttsToLast totalBytes initCwndPkts mssBytes - 1) * initCwndPkts ≤ _
    have hrtl : gpeakRttsToLast totalBytes initCwndPkts mssBytes =
        ceilLog2 (ceilDivNat (gpXferPkts totalBytes mssBytes) initCwndPkts + 1) - 1 := rfl
    rw [hrtl]
    exact h4.trans (by omega)
  · intro rtts cum cwnd hs
    rcases ssearch_done_cases totalBytes mssBytes minRtt totalTime
        (gpXferPkts totalBytes mssBytes) (gpXferPkts totalBytes mssBytes + 1)
        0 0 initCwndPkts rtts cum cwnd (by omega) (by omega) hs with
      hlt | ⟨cp, wp, hceq, hweq, hcp⟩
    · unfold gpBacktrack
      rw [if_neg (by omega)]
      simp
      omega
    · unfold gpBacktrack
      by_cases hxc : gpXferPkts totalBytes mssBytes ≤ cum
      · rw [if_pos hxc]
        show ((cum : ℤ) - (cwnd / 2 : ℕ) : ℤ) ≤ _
        have hhalf : cwnd / 2 = wp := by omega
        rw [hhalf, hceq]
        push_cast
        omega
      · rw [if_neg hxc]
        simp
        omega

/-- Witness for C7 at the spec fixture. -/
theorem no_overshoot_w :
    1 ≤ 10000000 ∧
    (2 ^ gpeakRttsToLast 10000000 10 1460 - 1) * 10 ≤ gpXferPkts 10000000 1460 :=
  ⟨by decide,
    (no_overshoot 10000000 10 1460 20000 500000 (by decide) (by decide) (by decide)
      (by decide)).1⟩

theorem ssearch_overrun (totalBytes mssBytes minRtt totalTime xferPkts : ℕ)
    (htt : totalTime < minRtt) :
    ∀ F rtts0 cum0 cwnd0, cum0 < xferPkts → xferPkts - cum0 < F →
      roundTput cwnd0 mssBytes minRtt ≠ 0 →
      ∃ rtts cum cwnd,
        ssearch totalBytes mssBytes minRtt totalTime xferPkts F rtts0 cum0 cwnd0 =
          .done rtts cum cwnd ∧ xferPkts ≤ cum ∧ rtts0 + 1 ≤ rtts := by
  intro F
  induction F with
  | zero => intro rtts0 cum0 cwnd0 h1 h2 h3; omega
  | succ f ih =>
    intro rtts0 cum0 cwnd0 hc hf ht
    have hw := roundTput_ne_zero_pos ht
    have hge : minRtt ≤ minRtt * (rtts0 + 1) := by
      have h1 := Nat.mul_le_mul_left minRtt (show 1 ≤ rtts0 + 1 by omega)
      simpa using h1
    have hterm : minRtt * (rtts0 + 1) ≤
        gpModelTime totalBytes mssBytes minRtt rtts0 cum0 cwnd0 := by
      show minRtt * (rtts0 + 1) ≤ minRtt * (rtts0 + 1) + _ + _
      exact (Nat.le_add_right _ _).trans (Nat.le_add_right _ _)
    have hnb : ¬ (gpModelTime totalBytes mssBytes minRtt rtts0 cum0 cwnd0 ≤ totalTime) := by
      omega
    rw [ssearch, if_neg (by omega), if_neg ht, if_neg hnb]
    by_cases hnext : cum0 + cwnd0 < xferPkts
    · have htput2 : roundTput (cwnd0 * 2) mssBytes minRtt ≠ 0 := by
        intro h0
        have := roundTput_mono mssBytes minRtt (show cwnd0 ≤ cwnd0 * 2 by omega)
        omega
      obtain ⟨rtts, cum, cwnd, heq, hxc, hr⟩ :=
        ih (rtts0 + 1) (cum0 + cwnd0) (cwnd0 * 2) hnext (by omega) htput2
      exact ⟨rtts, cum, cwnd, heq, hxc, by omega⟩
    · exact ⟨rtts0 + 1, cum0 + cwnd0, cwnd0 * 2,
        ssearch_guard_exit totalBytes mssBytes minRtt totalTime xferPkts f
          (rtts0 + 1) (cum0 + cwnd0) (cwnd0 * 2) (by omega),
        by omega, le_refl _⟩

/-- C4: for a nonzero transfer with `totalTime < minRtt` (and a nonzero
first-round modelled rate), `GoodputBps` returns
`ERROR_TRANSFER_FASTER_THAN_MODEL` with all numeric fields zero; it never
returns an `OK` record with clamped values. -/
theorem goodput_faster_than_model (totalBytes initCwndPkts mssBytes minRtt totalTime : ℕ)
    (htb : 1 ≤ totalBytes) (hic : 1 ≤ initCwndPkts) (hm : 1 ≤ mssBytes)
    (hR : 1 ≤ minRtt) (htt : totalTime < minRtt)
    (htput : roundTput initCwndPkts mssBytes minRtt ≠ 0) :
    GoodputBps totalBytes initCwndPkts mssBytes minRtt totalTime =
      ⟨0, 0, 0, 0, .ERROR_TRANSFER_FASTER_THAN_MODEL⟩ := by
  have hxp1 : 1 ≤ gpXferPkts totalBytes mssBytes := ceilDivNat_pos htb (by omega)
  obtain ⟨rtts, cum, cwnd, heq, hxc, hr⟩ :=
    ssearch_overrun totalBytes mssBytes minRtt totalTime (gpXferPkts totalBytes mssBytes)
      htt (gpXferPkts totalBytes mssBytes + 1) 0 0 initCwndPkts (by omega) (by omega) htput
  have hRne : minRtt ≠ 0 := by omega
  have hbt : gpBacktrack (gpXferPkts totalBytes mssBytes) rtts cum cwnd =
      ((rtts : ℤ) - 1, (cum : ℤ) - (cwnd / 2 : ℕ), cwnd / 2) := by
    unfold gpBacktrack
    rw [if_pos hxc]
  have hmul : (minRtt : ℤ) ≤ (minRtt : ℤ) * (rtts : ℤ) :=
    le_mul_of_one_le_right (by positivity) (by exact_mod_cast hr)
  have h2 : (totalTime : ℤ) < (minRtt : ℤ) := by exact_mod_cast htt
  simp [GoodputBps, hRne, heq, gpFinish, hbt]
  omega

/-- Witness for C4 at `totalBytes = 1`, `initCwndPkts = 1`, `mssBytes = 1`,
`minRtt = 2`, `totalTime = 1`. -/
theorem goodput_faster_than_model_w :
    1 < 2 ∧ roundTput 1 1 2 ≠ 0 ∧
    GoodputBps 1 1 1 2 1 = ⟨0, 0, 0, 0, .ERROR_TRANSFER_FASTER_THAN_MODEL⟩ :=
  ⟨by decide, by decide,
    goodput_faster_than_model 1 1 1 2 1 (by decide) (by decide) (by decide) (by decide)
      (by decide) (by decide)⟩

theorem sched_round_le (xferPkts initCwndPkts j : ℕ) (hic : 1 ≤ initCwndPkts)
    (hinv : initCwndPkts * (2 ^ (j - 1) - 1) < xferPkts) (hj : 1 ≤ j) :
    j ≤ ceilLog2 (xferPkts / initCwndPkts + 1) + 1 := by
  have h0 : (2 ^ (j - 1) - 1) * initCwndPkts < xferPkts := by
    rwa [Nat.mul_comm] at hinv
  have h1 : (2 ^ (j - 1) - 1) * initCwndPkts ≤ xferPkts - 1 := by omega
  have h2 : 2 ^ (j - 1) - 1 ≤ (xferPkts - 1) / initCwndPkts :=
    (Nat.le_div_iff_mul_le (by omega)).mpr h1
  have h3 : (xferPkts - 1) / initCwndPkts ≤ xferPkts / initCwndPkts :=
    Nat.div_le_div_right (by omega)
  have hp := Nat.two_pow_pos (j - 1)
  have h4 : 2 ^ (j - 1) ≤ xferPkts / initCwndPkts + 1 := by omega
  have h5 : 2 ^ (j - 1) ≤ 2 ^ ceilLog2 (xferPkts / initCwndPkts + 1) :=
    h4.trans (le_pow_ceilLog2 _)
  have h6 : j - 1 ≤ ceilLog2 (xferPkts / initCwndPkts + 1) :=
    (Nat.pow_le_pow_iff_right (by norm_num)).mp h5
  omega

theorem ssearch_sched_aux (totalBytes mssBytes minRtt totalTime xferPkts initCwndPkts : ℕ)
    (hic : 1 ≤ initCwndPkts) :
    ∀ F G j, (j = 0 ∨ initCwndPkts * (2 ^ (j - 1) - 1) < xferPkts) →
      ceilLog2 (xferPkts / initCwndPkts + 1) + 2 - j ≤ F →
      ceilLog2 (xferPkts / initCwndPkts + 1) + 2 - j ≤ G →
      ssearch totalBytes mssBytes minRtt totalTime xferPkts F j
          (initCwndPkts * (2 ^ j - 1)) (initCwndPkts * 2 ^ j) =
        ssearch totalBytes mssBytes minRtt totalTime xferPkts G j
          (initCwndPkts * (2 ^ j - 1)) (initCwndPkts * 2 ^ j) ∧
      (∀ rtts cum cwnd,
        ssearch totalBytes mssBytes minRtt totalTime xferPkts F j
            (initCwndPkts * (2 ^ j - 1)) (initCwndPkts * 2 ^ j) = .done rtts cum cwnd →
        rtts ≤ ceilLog2 (xferPkts / initCwndPkts + 1) + 1) := by
  intro F
  induction F with
  | zero =>
    intro G j hinv hF hG
    exfalso
    rcases hinv with h0 | h1
    · omega
    · rcases Nat.eq_zero_or_pos j with hj0 | hj1
      · omega
      · have := sched_round_le xferPkts initCwndPkts j hic h1 hj1
        omega
  | succ f ih =>
    intro G j hinv hF hG
    have hjle : j ≤ ceilLog2 (xferPkts / initCwndPkts + 1) + 1 := by
      rcases hinv with h0 | h1
      · omega
      · rcases Nat.eq_zero_or_pos j with hj0 | hj1
        · omega
        · exact sched_round_le xferPkts initCwndPkts j hic h1 hj1
    cases G with
    | zero => omega
    | succ g =>
      rw [ssearch, ssearch]
      by_cases hc : xferPkts ≤ initCwndPkts * (2 ^ j - 1)
      · rw [if_pos hc, if_pos hc]
        exact ⟨rfl, by intro rtts cum cwnd h; cases h; exact hjle⟩
      · rw [if_neg hc, if_neg hc]
        by_cases ht : roundTput (initCwndPkts * 2 ^ j) mssBytes minRtt = 0
        · rw [if_pos ht, if_pos ht]
          exact ⟨rfl, by intro rtts cum cwnd h; simp at h⟩
        · rw [if_neg ht, if_neg ht]
          by_cases hb : gpModelTime totalBytes mssBytes minRtt j
              (initCwndPkts * (2 ^ j - 1)) (initCwndPkts * 2 ^ j) ≤ totalTime
          · rw [if_pos hb, if_pos hb]
            exact ⟨rfl, by intro rtts cum cwnd h; cases h; exact hjle⟩
          · rw [if_neg hb, if_neg hb]
            have hp := Nat.two_pow_pos j
            have hcum : initCwndPkts * (2 ^ j - 1) + initCwndPkts * 2 ^ j =
                initCwndPkts * (2 ^ (j + 1) - 1) := by
              rw [← Nat.mul_add]
              congr 1
              rw [pow_succ]
              omega
            have hcw : initCwndPkts * 2 ^ j * 2 = initCwndPkts * 2 ^ (j + 1) := by
              rw [pow_succ, Nat.mul_assoc]
            rw [hcum, hcw]
            have hinv2 : (j + 1 = 0) ∨ initCwndPkts * (2 ^ (j + 1 - 1) - 1) < xferPkts :=
              Or.inr (by simpa using (by omega : initCwndPkts * (2 ^ j - 1) < xferPkts))
            exact ih g (j + 1) hinv2 (by omega) (by omega)

/-- C9: the search loop of `GoodputBps` terminates for every valid input and
its iteration count is logarithmic in `xferPkts / initCwndPkts`: the result
is unchanged by any fuel of at least
`ceilLog2 (xferPkts / initCwndPkts + 1) + 2`, the fuel `xferPkts + 1` the
function actually passes already reaches that fixed point, and the exit round
count is at most `ceilLog2 (xferPkts / initCwndPkts + 1) + 1`. -/
theorem goodput_loop_log_bound (totalBytes initCwndPkts mssBytes minRtt totalTime : ℕ)
    (htb : 1 ≤ totalBytes) (hic : 1 ≤ initCwndPkts) (hm : 1 ≤ mssBytes)
    (hR : 1 ≤ minRtt) :
    (∀ F, ceilLog2 (gpXferPkts totalBytes mssBytes / initCwndPkts + 1) + 2 ≤ F →
      ssearch totalBytes mssBytes minRtt totalTime (gpXferPkts totalBytes mssBytes)
          F 0 0 initCwndPkts =
        ssearch totalBytes mssBytes minRtt totalTime (gpXferPkts totalBytes mssBytes)
          (ceilLog2 (gpXferPkts totalBytes mssBytes / initCwndPkts + 1) + 2)
          0 0 initCwndPkts) ∧
    ssearch totalBytes mssBytes minRtt totalTime (gpXferPkts totalBytes mssBytes)
        (gpXferPkts totalBytes mssBytes + 1) 0 0 initCwndPkts =
      ssearch totalBytes mssBytes minRtt totalTime (gpXferPkts totalBytes mssBytes)
        (ceilLog2 (gpXferPkts totalBytes mssBytes / initCwndPkts + 1) + 2)
        0 0 initCwndPkts ∧
    (∀ rtts cum cwnd,
      ssearch totalBytes mssBytes minRtt totalTime (gpXferPkts totalBytes mssBytes)
          (gpXferPkts totalBytes mssBytes + 1) 0 0 initCwndPkts = .done rtts cum cwnd →
      rtts ≤ ceilLog2 (gpXferPkts totalBytes mssBytes / initCwndPkts + 1) + 1) := by
  have e1 : initCwndPkts * (2 ^ 0 - 1) = 0 := by simp
  have e2 : initCwndPkts * 2 ^ 0 = initCwndPkts := by simp
  have part1 : ∀ F, ceilLog2 (gpXferPkts totalBytes mssBytes / initCwndPkts + 1) + 2 ≤ F →
      ssearch totalBytes mssBytes minRtt totalTime (gpXferPkts totalBytes mssBytes)
          F 0 0 initCwndPkts =
        ssearch totalBytes mssBytes minRtt totalTime (gpXferPkts totalBytes mssBytes)
          (ceilLog2 (gpXferPkts totalBytes mssBytes / initCwndPkts + 1) + 2)
          0 0 initCwndPkts := by
    intro F hF
    have h := (ssearch_sched_aux totalBytes mssBytes minRtt totalTime
      (gpXferPkts totalBytes mssBytes) initCwndPkts hic F
      (ceilLog2 (gpXferPkts totalBytes mssBytes / initCwndPkts + 1) + 2) 0
      (Or.inl rfl) (by omega) (by omega)).1
    rw [e1, e2] at h
    exact h
  have part2 : ssearch totalBytes mssBytes minRtt totalTime (gpXferPkts totalBytes mssBytes)
      (gpXferPkts totalBytes mssBytes + 1) 0 0 initCwndPkts =
    ssearch totalBytes mssBytes minRtt totalTime (gpXferPkts totalBytes mssBytes)
      (ceilLog2 (gpXferPkts totalBytes mssBytes / initCwndPkts + 1) + 2)
      0 0 initCwndPkts := by
    by_cases hcase : ceilLog2 (gpXferPkts totalBytes mssBytes / initCwndPkts + 1) + 2 ≤
        gpXferPkts totalBytes mssBytes + 1
    · exact part1 (gpXferPkts totalBytes mssBytes + 1) hcase
    · exact ssearch_fuel_irrel totalBytes mssBytes minRtt totalTime
        (gpXferPkts totalBytes mssBytes) (gpXferPkts totalBytes mssBytes + 1)
        (ceilLog2 (gpXferPkts totalBytes mssBytes / initCwndPkts + 1) + 2)
        0 0 initCwndPkts (by omega) (by omega)
  refine ⟨part1, part2, ?_⟩
  intro rtts cum cwnd h
  rw [part2] at h
  have hb := (ssearch_sched_aux totalBytes mssBytes minRtt totalTime
    (gpXferPkts totalBytes mssBytes) initCwndPkts hic
    (ceilLog2 (gpXferPkts totalBytes mssBytes / initCwndPkts + 1) + 2)
    (ceilLog2 (gpXferPkts totalBytes mssBytes / initCwndPkts + 1) + 2) 0
    (Or.inl rfl) (by omega) (by omega)).2
  rw [e1, e2] at hb
  exact hb rtts cum cwnd h

/-- Witness for C9 at `totalBytes = 1`, `initCwndPkts = 1`, `mssBytes = 1`,
`minRtt = 1`, `totalTime = 0`. -/
theorem goodput_loop_log_bound_w :
    1 ≤ 1 ∧
    ((∀ F, ceilLog2 (gpXferPkts 1 1 / 1 + 1) + 2 ≤ F →
      ssearch 1 1 1 0 (gpXferPkts 1 1) F 0 0 1 =
        ssearch 1 1 1 0 (gpXferPkts 1 1) (ceilLog2 (gpXferPkts 1 1 / 1 + 1) + 2) 0 0 1) ∧
    ssearch 1 1 1 0 (gpXferPkts 1 1) (gpXferPkts 1 1 + 1) 0 0 1 =
      ssearch 1 1 1 0 (gpXferPkts 1 1) (ceilLog2 (gpXferPkts 1 1 / 1 + 1) + 2) 0 0 1 ∧
    (∀ rtts cum cwnd,
      ssearch 1 1 1 0 (gpXferPkts 1 1) (gpXferPkts 1 1 + 1) 0 0 1 = .done rtts cum cwnd →
      rtts ≤ ceilLog2 (gpXferPkts 1 1 / 1 + 1) + 1)) :=
  ⟨le_refl 1,
    goodput_loop_log_bound 1 1 1 1 0 (by decide) (by decide) (by decide) (by decide)⟩

theorem le_mul_two_pow (ic j : ℕ) : ic ≤ ic * 2 ^ j := by
  have h := Nat.mul_le_mul_left ic (Nat.two_pow_pos j)
  simpa using h

theorem ssearch_sched_break (totalBytes mssBytes minRtt totalTime xferPkts initCwndPkts : ℕ)
    (hic : 1 ≤ initCwndPkts) (r : ℕ)
    (hreach : ∀ j, j ≤ r → initCwndPkts * (2 ^ j - 1) < xferPkts)
    (htput : roundTput initCwndPkts mssBytes minRtt ≠ 0)
    (hnb : ∀ j, j < r →
      ¬ (gpModelTime totalBytes mssBytes minRtt j
          (initCwndPkts * (2 ^ j - 1)) (initCwndPkts * 2 ^ j) ≤ totalTime))
    (hbr : gpModelTime totalBytes mssBytes minRtt r
        (initCwndPkts * (2 ^ r - 1)) (initCwndPkts * 2 ^ r) ≤ totalTime) :
    ∀ F j, j ≤ r → r - j < F →
      ssearch totalBytes mssBytes minRtt totalTime xferPkts F j
          (initCwndPkts * (2 ^ j - 1)) (initCwndPkts * 2 ^ j) =
        .done r (initCwndPkts * (2 ^ r - 1)) (initCwndPkts * 2 ^ r) := by
  intro F
  induction F with
  | zero => intro j h1 h2; omega
  | succ f ih =>
    intro j hj hf
    have hguard : ¬ (xferPkts ≤ initCwndPkts * (2 ^ j - 1)) := by
      have := hreach j hj
      omega
    have htj : roundTput (initCwndPkts * 2 ^ j) mssBytes minRtt ≠ 0 := by
      intro h0
      have hmono := roundTput_mono mssBytes minRtt (le_mul_two_pow initCwndPkts j)
      omega
    rcases Nat.lt_or_ge j r with hjr | hjr
    · rw [ssearch, if_neg hguard, if_neg htj, if_neg (hnb j hjr)]
      have hp := Nat.two_pow_pos j
      have hcum : initCwndPkts * (2 ^ j - 1) + initCwndPkts * 2 ^ j =
          initCwndPkts * (2 ^ (j + 1) - 1) := by
        rw [← Nat.mul_add]
        congr 1
        rw [pow_succ]
        omega
      have hcw : initCwndPkts * 2 ^ j * 2 = initCwndPkts * 2 ^ (j + 1) := by
        rw [pow_succ, Nat.mul_assoc]
      rw [hcum, hcw]
      exact ih (j + 1) (by omega) (by omega)
    · have hjeq : j = r := by omega
      subst hjeq
      rw [ssearch, if_neg hguard, if_neg htj, if_pos hbr]

theorem natCast_div_emod_u32 (a b : ℕ) :
    (((a : ℤ) / (b : ℤ)) % (4294967296 : ℤ)).toNat = a / b % 4294967296 := by
  have h : ((a : ℤ)) / ((b : ℤ)) = ((a / b : ℕ) : ℤ) := by push_cast; ring
  rw [h]
  omega

theorem gpFinish_break_ok (totalBytes mssBytes minRtt totalTime xferPkts r cum cwnd : ℕ)
    (hcum : cum < xferPkts) (hpos : minRtt * (r + 1) < totalTime) :
    (gpFinish totalBytes mssBytes minRtt totalTime xferPkts r cum cwnd).status = .OK ∧
    (gpFinish totalBytes mssBytes minRtt totalTime xferPkts r cum cwnd).rttsInSlowStart =
      r % 2 ^ 32 ∧
    (gpFinish totalBytes mssBytes minRtt totalTime xferPkts r cum cwnd).bytesPerSec =
      ((xferPkts - cum + r) * mssBytes * MICROS_IN_SEC /
        (totalTime - minRtt * (r + 1))) % 2 ^ 32 := by
  have hbt : gpBacktrack xferPkts r cum cwnd = ((r : ℤ), (cum : ℤ), cwnd) := by
    unfold gpBacktrack
    rw [if_neg (by omega)]
  have hcast : ((minRtt * (r + 1) : ℕ) : ℤ) < (totalTime : ℤ) := by exact_mod_cast hpos
  push_cast at hcast
  have hcond : ¬ ((totalTime : ℤ) - (minRtt : ℤ) * ((r : ℤ) + 1) ≤ 0) := by omega
  have hDeq : (totalTime : ℤ) - (minRtt : ℤ) * ((r : ℤ) + 1) =
      ((totalTime - minRtt * (r + 1) : ℕ) : ℤ) := by
    rw [Nat.cast_sub (le_of_lt hpos)]
    push_cast
    ring
  have hnum : (xferPkts : ℤ) - (cum : ℤ) + (r : ℤ) = ((xferPkts - cum + r : ℕ) : ℤ) := by
    rw [Nat.cast_add, Nat.cast_sub (le_of_lt hcum)]
  have hach : gpAchievedBps mssBytes xferPkts (r : ℤ) (cum : ℤ)
      ((totalTime : ℤ) - (minRtt : ℤ) * ((r : ℤ) + 1)) =
      (((xferPkts - cum + r) * mssBytes * MICROS_IN_SEC /
        (totalTime - minRtt * (r + 1)) : ℕ) : ℤ) := by
    unfold gpAchievedBps
    rw [hDeq, hnum, ← Nat.cast_mul, ← Nat.cast_mul, ← Int.ofNat_tdiv]
  refine ⟨?_, ?_, ?_⟩
  · simp [gpFinish, hbt, hcond]
  · simp [gpFinish, hbt, hcond]
    omega
  · have hfield : (gpFinish totalBytes mssBytes minRtt totalTime xferPkts r cum cwnd).bytesPerSec =
        ((gpAchievedBps mssBytes xferPkts (r : ℤ) (cum : ℤ)
          ((totalTime : ℤ) - (minRtt : ℤ) * ((r : ℤ) + 1))) % (2 ^ 32 : ℤ)).toNat := by
      simp [gpFinish, hbt, hcond]
    rw [hfield, hach]
    omega

theorem achieved_ge_tput (totalBytes mssBytes minRtt r cum cwnd xferPkts : ℕ)
    (hcum : cum < xferPkts)
    (hxpm : totalBytes ≤ xferPkts * mssBytes)
    (hpos : minRtt * (r + 1) < gpModelTime totalBytes mssBytes minRtt r cum cwnd) :
    roundTput cwnd mssBytes minRtt ≤
      (xferPkts - cum + r) * mssBytes * MICROS_IN_SEC /
        (gpModelTime totalBytes mssBytes minRtt r cum cwnd - minRtt * (r + 1)) := by
  have hD : gpModelTime totalBytes mssBytes minRtt r cum cwnd - minRtt * (r + 1) =
      (totalBytes - cum * mssBytes) * MICROS_IN_SEC / roundTput cwnd mssBytes minRtt +
      r * mssBytes * MICROS_IN_SEC / roundTput cwnd mssBytes minRtt := by
    unfold gpModelTime
    rw [Nat.add_assoc]
    exact Nat.add_sub_cancel_left _ _
  have hDpos : 0 <
      gpModelTime totalBytes mssBytes minRtt r cum cwnd - minRtt * (r + 1) :=
    Nat.sub_pos_of_lt hpos
  rw [Nat.le_div_iff_mul_le hDpos, hD]
  have h1 := Nat.div_mul_le_self ((totalBytes - cum * mssBytes) * MICROS_IN_SEC)
    (roundTput cwnd mssBytes minRtt)
  have h2 := Nat.div_mul_le_self (r * mssBytes * MICROS_IN_SEC)
    (roundTput cwnd mssBytes minRtt)
  have h3 : totalBytes - cum * mssBytes ≤ (xferPkts - cum) * mssBytes := by
    rw [Nat.sub_mul]
    omega
  have h4 : (totalBytes - cum * mssBytes) * MICROS_IN_SEC ≤
      (xferPkts - cum) * mssBytes * MICROS_IN_SEC :=
    Nat.mul_le_mul_right _ h3
  have h5 : (xferPkts - cum + r) * mssBytes * MICROS_IN_SEC =
      (xferPkts - cum) * mssBytes * MICROS_IN_SEC + r * mssBytes * MICROS_IN_SEC := by
    rw [Nat.add_mul, Nat.add_mul]
  rw [Nat.mul_add, Nat.mul_comm (roundTput cwnd mssBytes minRtt),
    Nat.mul_comm (roundTput cwnd mssBytes minRtt)]
  omega

/-- C6 amended: construct `observedTotalTime` as exactly the modelled time of
round `r` of the idealized doubling schedule.  If round `r` is reachable
(every round up to `r` still leaves packets outstanding), the first-round
rate is nonzero, the modelled times of all earlier rounds are strictly larger
(a tie makes the search stop at the earlier round, so strictness is
necessary), and the remaining time at round `r` is positive (otherwise the
function returns `ERROR_TRANSFER_FASTER_THAN_MODEL`), then `GoodputBps`
recovers the same `roundsInSlowStart` (through the `uint32_t` narrowing) with
`status = OK`, and its `bytesPerSec` is exactly the `uint32_t` narrowing of
the achieved rate
`(xferPkts - cum_r + r) * mssBytes * 10^6 / (T(r) - minRtt * (r + 1))`,
which is at least the modelled per-round rate at round `r`; only this lower
bound holds, since the achieved rate can exceed the modelled rate by far more
than rounding. -/
theorem goodput_roundtrip (totalBytes initCwndPkts mssBytes minRtt r : ℕ)
    (htb : 1 ≤ totalBytes) (hic : 1 ≤ initCwndPkts) (hm : 1 ≤ mssBytes)
    (hR : 1 ≤ minRtt)
    (hreach : ∀ j, j < r + 1 →
      initCwndPkts * (2 ^ j - 1) < gpXferPkts totalBytes mssBytes)
    (htput : roundTput initCwndPkts mssBytes minRtt ≠ 0)
    (hstrict : ∀ j, j < r →
      gpModelTime totalBytes mssBytes minRtt r (initCwndPkts * (2 ^ r - 1))
          (initCwndPkts * 2 ^ r) <
        gpModelTime totalBytes mssBytes minRtt j (initCwndPkts * (2 ^ j - 1))
          (initCwndPkts * 2 ^ j))
    (hpos : minRtt * (r + 1) <
      gpModelTime totalBytes mssBytes minRtt r (initCwndPkts * (2 ^ r - 1))
        (initCwndPkts * 2 ^ r)) :
    (GoodputBps totalBytes initCwndPkts mssBytes minRtt
        (gpModelTime totalBytes mssBytes minRtt r (initCwndPkts * (2 ^ r - 1))
          (initCwndPkts * 2 ^ r))).status = .OK ∧
    (GoodputBps totalBytes initCwndPkts mssBytes minRtt
        (gpModelTime totalBytes mssBytes minRtt r (initCwndPkts * (2 ^ r - 1))
          (initCwndPkts * 2 ^ r))).rttsInSlowStart = r % 2 ^ 32 ∧
    (GoodputBps totalBytes initCwndPkts mssBytes minRtt
        (gpModelTime totalBytes mssBytes minRtt r (initCwndPkts * (2 ^ r - 1))
          (initCwndPkts * 2 ^ r))).bytesPerSec =
      ((gpXferPkts totalBytes mssBytes - initCwndPkts * (2 ^ r - 1) + r) * mssBytes *
        MICROS_IN_SEC /
        (gpModelTime totalBytes mssBytes minRtt r (initCwndPkts * (2 ^ r - 1))
          (initCwndPkts * 2 ^ r) - minRtt * (r + 1))) % 2 ^ 32 ∧
    roundTput (initCwndPkts * 2 ^ r) mssBytes minRtt ≤
      (gpXferPkts totalBytes mssBytes - initCwndPkts * (2 ^ r - 1) + r) * mssBytes *
        MICROS_IN_SEC /
        (gpModelTime totalBytes mssBytes minRtt r (initCwndPkts * (2 ^ r - 1))
          (initCwndPkts * 2 ^ r) - minRtt * (r + 1)) := by
  have hRne : minRtt ≠ 0 := by omega
  have hcumlt := hreach r (by omega)
  have hrxp : r ≤ gpXferPkts totalBytes mssBytes := by
    have h2 : r < 2 ^ r := Nat.lt_two_pow r
    have h3 : 1 * (2 ^ r - 1) ≤ initCwndPkts * (2 ^ r - 1) :=
      Nat.mul_le_mul_right _ hic
    omega
  have e1 : initCwndPkts * (2 ^ 0 - 1) = 0 := by simp
  have e2 : initCwndPkts * 2 ^ 0 = initCwndPkts := by simp
  have hloop : ssearch totalBytes mssBytes minRtt
      (gpModelTime totalBytes mssBytes minRtt r (initCwndPkts * (2 ^ r - 1))
        (initCwndPkts * 2 ^ r))
      (gpXferPkts totalBytes mssBytes) (gpXferPkts totalBytes mssBytes + 1)
      0 0 initCwndPkts =
      .done r (initCwndPkts * (2 ^ r - 1)) (initCwndPkts * 2 ^ r) := by
    have h := ssearch_sched_break totalBytes mssBytes minRtt
      (gpModelTime totalBytes mssBytes minRtt r (initCwndPkts * (2 ^ r - 1))
        (initCwndPkts * 2 ^ r))
      (gpXferPkts totalBytes mssBytes) initCwndPkts hic r
      (fun j hj => hreach j (by omega)) htput
      (fun j hj => by have := hstrict j hj; omega)
      (le_refl _)
      (gpXferPkts totalBytes mssBytes + 1) 0 (by omega) (by omega)
    rw [e1, e2] at h
    exact h
  have hGB : GoodputBps totalBytes initCwndPkts mssBytes minRtt
      (gpModelTime totalBytes mssBytes minRtt r (initCwndPkts * (2 ^ r - 1))
        (initCwndPkts * 2 ^ r)) =
      gpFinish totalBytes mssBytes minRtt
        (gpModelTime totalBytes mssBytes minRtt r (initCwndPkts * (2 ^ r - 1))
          (initCwndPkts * 2 ^ r))
        (gpXferPkts totalBytes mssBytes) r (initCwndPkts * (2 ^ r - 1))
        (initCwndPkts * 2 ^ r) := by
    simp [GoodputBps, hRne, hloop]
  obtain ⟨hst, hrt, hbp⟩ := gpFinish_break_ok totalBytes mssBytes minRtt
    (gpModelTime totalBytes mssBytes minRtt r (initCwndPkts * (2 ^ r - 1))
      (initCwndPkts * 2 ^ r))
    (gpXferPkts totalBytes mssBytes) r (initCwndPkts * (2 ^ r - 1))
    (initCwndPkts * 2 ^ r) hcumlt hpos
  rw [hGB]
  have hxpm : totalBytes ≤ gpXferPkts totalBytes mssBytes * mssBytes := by
    have h := le_mul_ceilDivNat (show 0 < mssBytes by omega) totalBytes
    unfold gpXferPkts
    rw [Nat.mul_comm]
    exact h
  exact ⟨hst, hrt, hbp,
    achieved_ge_tput totalBytes mssBytes minRtt r (initCwndPkts * (2 ^ r - 1))
      (initCwndPkts * 2 ^ r) (gpXferPkts totalBytes mssBytes) hcumlt hxpm hpos⟩

/-- C6 counterexample: the round-trip claim fails in three ways, each at a
concrete valid input where `observedTotalTime` is constructed as exactly the
modelled time of a reachable round with nonzero rate.
First, on `totalBytes = 2`, `initCwndPkts = 1`, `mssBytes = 1`,
`minRtt = 1000000`, the modelled times of rounds 0 and 1 tie at `3000000`;
feeding round 1's time back returns `roundsInSlowStart = 0`, not `1`, so the
round count is not recovered.
Second, on `totalBytes = 5`, `initCwndPkts = 6000000`, `mssBytes = 1`,
`minRtt = 1000000`, the modelled time of round 0 is `1000000` and feeding it
back returns `ERROR_TRANSFER_FASTER_THAN_MODEL`, not an `OK` record at all.
Third, on `totalBytes = 9`, `initCwndPkts = 5000000`, `mssBytes = 1`,
`minRtt = 1000000`, the modelled time of round 0 is `1000001`, the modelled
per-round rate at round 0 is `5000000` bytes per second, and feeding the
time back returns `bytesPerSecond = 9000000` — 80 percent above the modelled
rate, far outside rounding tolerance, so only a lower bound relates the
returned rate to the modelled one. -/
theorem goodput_roundtrip_fails :
    (gpModelTime 2 1 1000000 1 (1 * (2 ^ 1 - 1)) (1 * 2 ^ 1) = 3000000 ∧
      (∀ j, j < 1 + 1 → 1 * (2 ^ j - 1) < gpXferPkts 2 1) ∧
      roundTput 1 1 1000000 ≠ 0 ∧
      (GoodputBps 2 1 1 1000000 3000000).status = .OK ∧
      (GoodputBps 2 1 1 1000000 3000000).rttsInSlowStart = 0 ∧
      (GoodputBps 2 1 1 1000000 3000000).rttsInSlowStart ≠ 1) ∧
    (gpModelTime 5 1 1000000 0 (6000000 * (2 ^ 0 - 1)) (6000000 * 2 ^ 0) = 1000000 ∧
      6000000 * (2 ^ 0 - 1) < gpXferPkts 5 1 ∧
      roundTput 6000000 1 1000000 ≠ 0 ∧
      (GoodputBps 5 6000000 1 1000000 1000000).status =
        .ERROR_TRANSFER_FASTER_THAN_MODEL ∧
      (GoodputBps 5 6000000 1 1000000 1000000).status ≠ .OK) ∧
    (gpModelTime 9 1 1000000 0 (5000000 * (2 ^ 0 - 1)) (5000000 * 2 ^ 0) = 1000001 ∧
      5000000 * (2 ^ 0 - 1) < gpXferPkts 9 1 ∧
      roundTput (5000000 * 2 ^ 0) 1 1000000 = 5000000 ∧
      (GoodputBps 9 5000000 1 1000000 1000001).status = .OK ∧
      (GoodputBps 9 5000000 1 1000000 1000001).rttsInSlowStart = 0 ∧
      (GoodputBps 9 5000000 1 1000000 1000001).bytesPerSec = 9000000) := by
  decide

/-- Witness for the amended C6 at `totalBytes = 8`, `initCwndPkts = 1`,
`mssBytes = 1`, `minRtt = 1000000`, round `r = 3` (where the achieved rate
and the modelled rate are both 8 bytes per second). -/
theorem goodput_roundtrip_w :
    (∀ j, j < 3 + 1 → 1 * (2 ^ j - 1) < gpXferPkts 8 1) ∧
    ((GoodputBps 8 1 1 1000000
        (gpModelTime 8 1 1000000 3 (1 * (2 ^ 3 - 1)) (1 * 2 ^ 3))).status = .OK ∧
    (GoodputBps 8 1 1 1000000
        (gpModelTime 8 1 1000000 3 (1 * (2 ^ 3 - 1)) (1 * 2 ^ 3))).rttsInSlowStart =
      3 % 2 ^ 32 ∧
    (GoodputBps 8 1 1 1000000
        (gpModelTime 8 1 1000000 3 (1 * (2 ^ 3 - 1)) (1 * 2 ^ 3))).bytesPerSec =
      ((gpXferPkts 8 1 - 1 * (2 ^ 3 - 1) + 3) * 1 * MICROS_IN_SEC /
        (gpModelTime 8 1 1000000 3 (1 * (2 ^ 3 - 1)) (1 * 2 ^ 3) -
          1000000 * (3 + 1))) % 2 ^ 32 ∧
    roundTput (1 * 2 ^ 3) 1 1000000 ≤
      (gpXferPkts 8 1 - 1 * (2 ^ 3 - 1) + 3) * 1 * MICROS_IN_SEC /
        (gpModelTime 8 1 1000000 3 (1 * (2 ^ 3 - 1)) (1 * 2 ^ 3) -
          1000000 * (3 + 1))) :=
  ⟨by decide,
    goodput_roundtrip 8 1 1 1000000 3 (by decide) (by decide) (by decide) (by decide)
      (by decide) (by decide) (by decide) (by decide)⟩
